import Mathlib

/-!
Shallow embedding of the realtime duplex-audio application (`src/app.rs`).

The application state mirrors the Rust `App` struct (UI widget handles are
dropped; the two status labels are kept as plain strings, without the emoji
prefixes of the original literals).  Audio samples (`f32` in the source) are
modelled as exact rationals; 16-bit machine integers are `Int` with explicit
reduction modulo 2^16.  The `Arc<Mutex<..>>` shared cells are modelled as
plain fields: every handler runs sequentially, so each `lock`/`try_lock` in
the source succeeds in the model.  Outbound websocket traffic is recorded in
a ghost `sent` list (one entry per `send_openai_message` call that finds an
open socket); base64 framing is external library code and is left abstract:
handlers that receive base64 payloads take the decode result (`Option` of a
byte list) as input.
-/

/-- `i16::from_le_bytes` applied to the 16-bit value `u`: reduce modulo 2^16
and interpret as a two's-complement signed 16-bit integer. -/
def toI16 (u : Nat) : Int :=
  if u % 65536 < 32768 then (u % 65536 : Int) else (u % 65536 : Int) - 65536

/-- `App::convert_pcm16_to_f32` (src/app.rs:1017-1027): walk the byte list in
exact pairs (`chunks_exact(2)` — a trailing odd byte is dropped), rebuild the
little-endian `i16` and divide by 32767.0. -/
def convert_pcm16_to_f32 : List Nat → List ℚ
  | b0 :: b1 :: rest => ((toI16 (b0 + 256 * b1) : ℚ) / 32767) :: convert_pcm16_to_f32 rest
  | _ => []

/-- Rust `as i16` on an in-range float value: truncation toward zero. -/
def truncQ (x : ℚ) : Int := if 0 ≤ x then ⌊x⌋ else ⌈x⌉

/-- `i16::to_le_bytes` of a signed 16-bit value: two's-complement reduction
modulo 2^16, then the low byte followed by the high byte. -/
def i16ToLeBytes (n : Int) : List Nat :=
  [(n % 65536 % 256).toNat, (n % 65536 / 256).toNat]

/-- `App::convert_f32_to_pcm16` (src/app.rs:973-984): clamp each sample to
[-1, 1] (`sample.max(-1.0).min(1.0)`), scale by 32767, truncate to `i16`,
little-endian encode. -/
def convert_f32_to_pcm16 (samples : List ℚ) : List Nat :=
  (samples.map (fun s => i16ToLeBytes (truncQ (min (max s (-1)) 1 * 32767)))).flatten

/-- The `#[rust]` state of the Rust `App` struct (src/app.rs:314-352), minus
the widget tree; `connection_status` and `status_label` stand for the two
labels the handlers write to, and `sent` is a ghost log of the byte payloads
handed to the websocket. -/
structure AppState where
  recorded_audio : List ℚ
  playback_audio : List ℚ
  is_recording : Bool
  is_playing : Bool
  playback_position : Nat
  websocket : Option Unit
  is_connected : Bool
  conversation_active : Bool
  current_transcript : List Char
  openai_api_key : Option String
  audio_streaming_timer : Bool
  has_sent_audio : Bool
  ai_is_responding : Bool
  user_is_interrupting : Bool
  current_assistant_item_id : Option String
  connection_status : String
  status_label : String
  sent : List (List Nat)
deriving DecidableEq

/-- The default-initialised `App` state (all `#[rust]` fields start at their
`Default` values). -/
def baseState : AppState :=
  { recorded_audio := []
    playback_audio := []
    is_recording := false
    is_playing := false
    playback_position := 0
    websocket := none
    is_connected := false
    conversation_active := false
    current_transcript := []
    openai_api_key := none
    audio_streaming_timer := false
    has_sent_audio := false
    ai_is_responding := false
    user_is_interrupting := false
    current_assistant_item_id := none
    connection_status := "Disconnected"
    status_label := "Ready to connect"
    sent := [] }

/-- The unguarded interior of `App::add_audio_to_playback`
(src/app.rs:996-1014), i.e. the spec's `push_playback`: if not currently
playing, clear the buffer, reset the cursor to 0 and set playing; then append
the samples. -/
def pushPlayback (samples : List ℚ) (st : AppState) : AppState :=
  if st.is_playing then
    { st with playback_audio := st.playback_audio ++ samples }
  else
    { st with playback_audio := samples
              playback_position := 0
              is_playing := true }

/-- `App::add_audio_to_playback` (src/app.rs:986-1015): early return when
`ai_is_responding` is false, otherwise PCM16-decode the bytes and push. -/
def add_audio_to_playback (audio_bytes : List Nat) (st : AppState) : AppState :=
  if !st.ai_is_responding then st
  else pushPlayback (convert_pcm16_to_f32 audio_bytes) st

/-- `App::send_openai_message` (src/app.rs:833-847), with the message body
abstracted to the byte payload it carries: a send happens only when a socket
handle exists; it is appended to the ghost `sent` log. -/
def send_openai_message (payload : List Nat) (st : AppState) : AppState :=
  match st.websocket with
  | some _ => { st with sent := st.sent ++ [payload] }
  | none => st

/-- `App::send_audio_chunk_to_openai` (src/app.rs:943-971): take-and-clear
the capture buffer if non-empty, PCM16-encode, send (base64 framing
abstracted away), and mark `has_sent_audio`. -/
def send_audio_chunk_to_openai (st : AppState) : AppState :=
  if st.recorded_audio.isEmpty then st
  else
    let samples := st.recorded_audio
    let st1 := { st with recorded_audio := [] }
    let st2 := send_openai_message (convert_f32_to_pcm16 samples) st1
    { st2 with has_sent_audio := true }

/-- The `response.audio.delta` arm of `App::handle_openai_message`
(src/app.rs:681-711).  `interruptions_enabled` is the live value of the UI
toggle; `decoded_delta` is the result of base64-decoding the `delta` field
(`none` models a decode failure, which skips the push). -/
def handleResponseAudioDelta (interruptions_enabled : Bool) (item_id : String)
    (decoded_delta : Option (List Nat)) (st : AppState) : AppState :=
  if st.user_is_interrupting then st
  else
    let st1 := if st.current_assistant_item_id = none
               then { st with current_assistant_item_id := some item_id } else st
    let st2 := { st1 with ai_is_responding := true }
    let st3 := if st2.conversation_active
               then { st2 with is_recording := interruptions_enabled } else st2
    let st4 := match decoded_delta with
               | some bytes => add_audio_to_playback bytes st3
               | none => st3
    { st4 with status_label := "Playing audio..." }

/-- The `response.audio_transcript.delta` arm of `App::handle_openai_message`
(src/app.rs:712-731): mark the assistant as responding, append the delta,
and when the transcript exceeds 500 it is replaced by `chars().skip(200)`.
Text is modelled as a char list (byte length and char count coincide over
the model's alphabet). -/
def handleResponseAudioTranscriptDelta (delta : List Char) (st : AppState) : AppState :=
  let st1 := { st with ai_is_responding := true }
  let t := st1.current_transcript ++ delta
  let t1 := if t.length > 500 then t.drop 200 else t
  { st1 with current_transcript := t1 }

/-- The `response.done` arm of `App::handle_openai_message`
(src/app.rs:732-758). -/
def handleResponseDone (interruptions_enabled : Bool) (st : AppState) : AppState :=
  let st1 := { st with user_is_interrupting := false
                       ai_is_responding := false
                       current_assistant_item_id := none }
  if st1.conversation_active then
    if interruptions_enabled then
      { st1 with is_recording := true
                 status_label := "Response generated - listening..." }
    else
      if st1.playback_audio.isEmpty then
        { st1 with is_recording := true
                   status_label := "Response generated - listening..." }
      else
        { st1 with status_label := "Response generated - playing audio" }
  else st1

/-- The `input_audio_buffer.speech_started` arm of
`App::handle_openai_message` (src/app.rs:760-789): clear the playback
buffer, stop playback, reset the cursor, and resume recording if a
conversation is active. -/
def handleSpeechStarted (st : AppState) : AppState :=
  let st1 := { st with status_label := "User speech detected" }
  let st2 := { st1 with playback_audio := [] }
  let st3 := { st2 with is_playing := false }
  let st4 := { st3 with playback_position := 0 }
  if st4.conversation_active then { st4 with is_recording := true } else st4

/-- `App::connect_to_openai` (src/app.rs:552-577): without an API key, set
the error label and return; otherwise open the websocket and show
"Connecting...". -/
def connect_to_openai (st : AppState) : AppState :=
  match st.openai_api_key with
  | none => { st with connection_status := "Please set OPENAI_API_KEY" }
  | some _ =>
      { st with websocket := some ()
                connection_status := "Connecting..." }

/-- `App::stop_conversation` (src/app.rs:915-935): deactivate, stop
recording, cancel the streaming timer, clear pending playback audio and set
the status label.  `is_playing` and `playback_position` are not touched. -/
def stop_conversation (st : AppState) : AppState :=
  let st1 := { st with conversation_active := false
                       ai_is_responding := false
                       is_recording := false }
  let st2 := { st1 with audio_streaming_timer := false }
  let st3 := { st2 with playback_audio := [] }
  { st3 with status_label := "Conversation stopped" }

/-- The timer branch of `App::handle_event` (src/app.rs:416-441): on a tick
of the streaming timer, send a capture chunk while the conversation is
active, then — independently — if the playback buffer is empty and
interruptions are disabled, auto-resume recording when it is off, the
conversation is active and the AI is not responding. -/
def handleTimerTick (interruptions_enabled : Bool) (st : AppState) : AppState :=
  if st.audio_streaming_timer then
    let st1 := if st.conversation_active then send_audio_chunk_to_openai st else st
    if st1.playback_audio.isEmpty then
      if !interruptions_enabled then
        if !st1.is_recording && st1.conversation_active && !st1.ai_is_responding then
          { st1 with is_recording := true
                     status_label := "Listening..." }
        else st1
      else st1
    else st1
  else st

/-- The iteration `for frame_idx in 0..frame_count` of the audio output
callback (src/app.rs:500-527).  The buffer itself is not modified inside the
loop, so only its length is passed.  Returns the final cursor, the
`samples_to_drain` count and the `is_playing` flag (`false` exactly when the
`else` branch broke out of the loop). -/
def playLoop (frames len pos drain : Nat) : Nat × Nat × Bool :=
  match frames with
  | 0 => (pos, drain, true)
  | f + 1 =>
      if pos / 2 < len then
        let pos1 := pos + 1
        let drain1 := if pos1 % 2 = 0 then drain + 1 else drain
        playLoop f len pos1 drain1
      else
        (0, len, false)

/-- One invocation of the audio output callback registered in
`App::setup_audio` (src/app.rs:485-547), for a frame count of
`frame_count`.  The actual channel writes produce no state change and are
omitted; everything else follows the source: the outer guard, the frame
loop, the guarded `drain(..samples_to_drain)` with the
`saturating_sub` cursor correction, and the stop-and-reset branch when
playing on an empty buffer. -/
def onPlaybackFrame (frame_count : Nat) (st : AppState) : AppState :=
  if st.is_playing ∧ st.playback_audio ≠ [] ∧
      st.playback_position < st.playback_audio.length * 2 then
    let r := playLoop frame_count st.playback_audio.length st.playback_position 0
    if 0 < r.2.1 ∧ r.2.1 ≤ st.playback_audio.length then
      { st with is_playing := r.2.2
                playback_audio := st.playback_audio.drop r.2.1
                playback_position := r.1 - r.2.1 * 2 }
    else
      { st with is_playing := r.2.2
                playback_position := r.1 }
  else
    if st.is_playing ∧ st.playback_audio = [] then
      { st with is_playing := false, playback_position := 0 }
    else st

/-- A sequence of playback-callback invocations, given the frame count of
each. -/
def runPlaybackFrames (ticks : List Nat) (st : AppState) : AppState :=
  ticks.foldl (fun s n => onPlaybackFrame n s) st

/-- A sequence of inbound `response.audio_transcript.delta` events. -/
def runTranscriptDeltas (deltas : List (List Char)) (st : AppState) : AppState :=
  deltas.foldl (fun s d => handleResponseAudioTranscriptDelta d s) st

/-- The playback-drain invariant of the spec: the cursor never exceeds twice
the buffer length, and no sample of the buffer has its whole upsampled index
range (2i, 2i+1) strictly below the cursor. -/
def playbackInv (st : AppState) : Prop :=
  st.playback_position ≤ 2 * st.playback_audio.length ∧
  ∀ i < st.playback_audio.length, ¬ (2 * i + 1 < st.playback_position)

/-- C2: processing `input_audio_buffer.speech_started` empties the playback
buffer, clears the playing flag, resets the cursor to 0, and turns recording
on exactly when `conversation_active` holds (otherwise recording keeps its
prior value). -/
theorem speech_started_clears_playback (st : AppState) :
    (handleSpeechStarted st).playback_audio = [] ∧
    (handleSpeechStarted st).is_playing = false ∧
    (handleSpeechStarted st).playback_position = 0 ∧
    (handleSpeechStarted st).is_recording
      = (st.conversation_active || st.is_recording) := by
  unfold handleSpeechStarted
  cases h : st.conversation_active <;> simp [h]

/-- C6: pushing samples while the playing flag is false replaces the buffer
with exactly those samples, resets the cursor to 0 and sets playing. -/
theorem push_playback_not_playing (samples : List ℚ) (st : AppState)
    (h : st.is_playing = false) :
    (pushPlayback samples st).playback_audio = samples ∧
    (pushPlayback samples st).playback_position = 0 ∧
    (pushPlayback samples st).is_playing = true := by
  simp [pushPlayback, h]

/-- C6 witness: the spec's concrete instance — buffer `[1,2,3]`, not
playing, push `[4,5]`. -/
theorem push_playback_not_playing_witness :
    (pushPlayback [4, 5] { baseState with playback_audio := [1, 2, 3],
                                          is_playing := false }).playback_audio
        = [4, 5] ∧
    (pushPlayback [4, 5] { baseState with playback_audio := [1, 2, 3],
                                          is_playing := false }).playback_position = 0 ∧
    (pushPlayback [4, 5] { baseState with playback_audio := [1, 2, 3],
                                          is_playing := false }).is_playing = true :=
  push_playback_not_playing [4, 5] _ rfl

/-- C8: a connect request with no API key changes nothing but the
connection-status label; in particular the websocket field is untouched (it
stays `none` if it was `none`) and no session or conversation state moves. -/
theorem connect_without_key_aborts (st : AppState)
    (h : st.openai_api_key = none) :
    connect_to_openai st
      = { st with connection_status := "Please set OPENAI_API_KEY" } ∧
    (connect_to_openai st).websocket = st.websocket := by
  unfold connect_to_openai
  rw [h]
  exact ⟨rfl, rfl⟩

/-- C8 witness: connecting from the default state (whose key is absent). -/
theorem connect_without_key_aborts_witness :
    connect_to_openai baseState
      = { baseState with connection_status := "Please set OPENAI_API_KEY" } ∧
    (connect_to_openai baseState).websocket = baseState.websocket :=
  connect_without_key_aborts baseState rfl

/-- C9: stopping a conversation clears the playback buffer, forces recording
off, deactivates the conversation and clears `ai_is_responding`, while
leaving `is_playing` and `playback_position` exactly as they were. -/
theorem stop_conversation_frame (st : AppState) :
    (stop_conversation st).playback_audio = [] ∧
    (stop_conversation st).is_recording = false ∧
    (stop_conversation st).conversation_active = false ∧
    (stop_conversation st).ai_is_responding = false ∧
    (stop_conversation st).is_playing = st.is_playing ∧
    (stop_conversation st).playback_position = st.playback_position := by
  simp [stop_conversation]

/-- `i16::from_le_bytes` always lands in the signed 16-bit range. -/
theorem toI16_bounds (u : Nat) : -32768 ≤ toI16 u ∧ toI16 u ≤ 32767 := by
  unfold toI16
  split <;> omega

/-- Decoding yields one sample per exact byte pair. -/
theorem convert_pcm16_to_f32_length (l : List Nat) :
    (convert_pcm16_to_f32 l).length = l.length / 2 := by
  induction l using convert_pcm16_to_f32.induct with
  | case1 b0 b1 rest ih => simp [convert_pcm16_to_f32, ih]; omega
  | case2 l h =>
      cases l with
      | nil => simp [convert_pcm16_to_f32]
      | cons a t =>
          cases t with
          | nil => simp [convert_pcm16_to_f32]
          | cons b r => exact (h a b r rfl).elim

/-- Every decoded sample lies in [-32768/32767, 32767/32767]. -/
theorem convert_pcm16_to_f32_mem_bounds (l : List Nat) :
    ∀ x ∈ convert_pcm16_to_f32 l, -(32768 / 32767 : ℚ) ≤ x ∧ x ≤ 32767 / 32767 := by
  induction l using convert_pcm16_to_f32.induct with
  | case1 b0 b1 rest ih =>
      intro x hx
      simp only [convert_pcm16_to_f32, List.mem_cons] at hx
      rcases hx with h | h
      · subst h
        have hb := toI16_bounds (b0 + 256 * b1)
        constructor
        · rw [← neg_div]
          apply div_le_div_of_nonneg_right ?_ (by norm_num)
          · exact_mod_cast hb.1
        · apply div_le_div_of_nonneg_right ?_ (by norm_num)
          · exact_mod_cast hb.2
      · exact ih x h
  | case2 l h =>
      cases l with
      | nil => simp [convert_pcm16_to_f32]
      | cons a t =>
          cases t with
          | nil => simp [convert_pcm16_to_f32]
          | cons b r => exact (h a b r rfl).elim

/-- C10: for a byte sequence of length n, `convert_pcm16_to_f32` returns
exactly `n / 2` samples (a trailing odd byte is silently ignored), and every
returned sample lies in [-32768/32767, 32767/32767]. -/
theorem pcm16_decode_shape (l : List Nat) :
    (convert_pcm16_to_f32 l).length = l.length / 2 ∧
    ∀ i, (h : i < (convert_pcm16_to_f32 l).length) →
      -(32768 / 32767 : ℚ) ≤ (convert_pcm16_to_f32 l).get ⟨i, h⟩ ∧
      (convert_pcm16_to_f32 l).get ⟨i, h⟩ ≤ 32767 / 32767 := by
  refine ⟨convert_pcm16_to_f32_length l, ?_⟩
  intro i h
  exact convert_pcm16_to_f32_mem_bounds l _ (List.get_mem _ _ h)

/-- C10 witness: decoding the 3-byte sequence `[0, 128, 7]` gives one sample
(`floor(3/2)`), namely -32768/32767, which is slightly below -1 and meets
the bounds. -/
theorem pcm16_decode_shape_witness :
    (convert_pcm16_to_f32 [0, 128, 7]).length = [0, 128, 7].length / 2 ∧
    (-(32768 / 32767 : ℚ) ≤ (convert_pcm16_to_f32 [0, 128, 7]).get
        ⟨0, by decide⟩ ∧
      (convert_pcm16_to_f32 [0, 128, 7]).get ⟨0, by decide⟩ ≤ 32767 / 32767) :=
  ⟨(pcm16_decode_shape [0, 128, 7]).1,
   (pcm16_decode_shape [0, 128, 7]).2 0 (by decide)⟩

/-- C7 counterexample: there is no fixed bound on the running transcript —
the truncation drops only the first 200 characters when the transcript
exceeds 500, so a single delta of length B + 701 starting from an empty
transcript leaves B + 501 > B characters. -/
theorem transcript_unbounded_counterexample :
    ¬ ∃ B : Nat, ∀ (deltas : List (List Char)) (st : AppState),
        st.current_transcript = [] →
        (runTranscriptDeltas deltas st).current_transcript.length ≤ B := by
  rintro ⟨B, hB⟩
  have h := hB [List.replicate (B + 701) 'a'] baseState rfl
  simp only [runTranscriptDeltas, List.foldl_cons, List.foldl_nil,
    handleResponseAudioTranscriptDelta] at h
  simp only [baseState, List.nil_append, List.length_replicate] at h
  split at h
  · rw [List.length_drop, List.length_replicate] at h
    omega
  · omega

/-- One transcript-delta step keeps the length at or below 500 when the
incoming delta has at most 200 characters. -/
theorem transcript_step_bound (d : List Char) (st : AppState)
    (hd : d.length ≤ 200) (h : st.current_transcript.length ≤ 500) :
    (handleResponseAudioTranscriptDelta d st).current_transcript.length ≤ 500 := by
  simp only [handleResponseAudioTranscriptDelta]
  split
  · rw [List.length_drop, List.length_append]
    omega
  · rw [List.length_append]
    next hgt =>
      rw [List.length_append] at hgt
      omega

/-- C7 amended: the transcript length is bounded (by 500) after each event
provided every delta carries at most 200 characters; starting from any
transcript of length at most 500 (the conversation starts it empty), each
`response.audio_transcript.delta` of such a sequence preserves the bound. -/
theorem transcript_bounded_with_short_deltas (deltas : List (List Char))
    (st : AppState) (hd : ∀ d ∈ deltas, d.length ≤ 200)
    (h0 : st.current_transcript.length ≤ 500) :
    (runTranscriptDeltas deltas st).current_transcript.length ≤ 500 := by
  induction deltas generalizing st with
  | nil => exact h0
  | cons d rest ih =>
      exact ih (handleResponseAudioTranscriptDelta d st)
        (fun x hx => hd x (List.mem_cons_of_mem d hx))
        (transcript_step_bound d st (hd d (List.mem_cons_self d rest)) h0)

/-- C7 amended witness: two short deltas from the empty transcript stay
within the 500-character budget. -/
theorem transcript_bounded_with_short_deltas_witness :
    (runTranscriptDeltas [['h', 'i'], ['y', 'o']] baseState).current_transcript.length
      ≤ 500 :=
  transcript_bounded_with_short_deltas [['h', 'i'], ['y', 'o']] baseState
    (by decide) (by decide)

/-- C1 counterexample: from the initial state (`ai_is_responding = false`,
`user_is_interrupting = false`, empty playback buffer), handling a
`response.audio.delta` whose payload decodes to the byte pair `[1, 0]` does
mutate the PlaybackBuffer — the arm sets `ai_is_responding := true` before
calling `add_audio_to_playback`, so that function's guard never fires. -/
theorem audio_delta_mutates_counterexample :
    baseState.ai_is_responding = false ∧
    baseState.user_is_interrupting = false ∧
    (handleResponseAudioDelta false "item-1" (some [1, 0]) baseState).playback_audio ≠
      baseState.playback_audio := by
  decide

/-- C1 amended: whenever `user_is_interrupting` is false, a
`response.audio.delta` event whose base64 payload decodes successfully is
accepted regardless of the prior `ai_is_responding` value (the handler sets
the flag to true before pushing): the PlaybackBuffer ends up appended-to
when already playing, and replaced by the decoded samples otherwise. -/
theorem audio_delta_accepted_when_not_interrupting (st : AppState)
    (interruptions_enabled : Bool) (item_id : String) (bytes : List Nat)
    (h : st.user_is_interrupting = false) :
    (handleResponseAudioDelta interruptions_enabled item_id (some bytes) st).playback_audio
      = (if st.is_playing then st.playback_audio ++ convert_pcm16_to_f32 bytes
         else convert_pcm16_to_f32 bytes) := by
  obtain ⟨ra, pa, ir, ip, pp, ws, ic, ca, ct, key, ti, hs, ai, ui, id0, cs, sl, sn⟩ := st
  simp only at h
  subst h
  simp only [handleResponseAudioDelta, add_audio_to_playback, pushPlayback]
  split_ifs <;> simp_all

/-- A state that is mid-playback of the one-sample buffer `[1]`. -/
def playingState : AppState :=
  { baseState with is_playing := true, playback_audio := [1] }

/-- C1 amended witness: while already playing buffer `[1]`, a delta decoding
to the silent sample pair `[0, 0]` is appended. -/
theorem audio_delta_accepted_witness :
    (handleResponseAudioDelta true "i" (some [0, 0]) playingState).playback_audio
      = (if playingState.is_playing
         then playingState.playback_audio ++ convert_pcm16_to_f32 [0, 0]
         else convert_pcm16_to_f32 [0, 0]) :=
  audio_delta_accepted_when_not_interrupting playingState true "i" [0, 0] rfl

/-- `App::send_audio_chunk_to_openai` only touches the capture buffer, the
ghost send log and `has_sent_audio`; the fields consulted by the timer's
auto-resume check are untouched. -/
theorem send_chunk_preserves (st : AppState) :
    (send_audio_chunk_to_openai st).is_recording = st.is_recording ∧
    (send_audio_chunk_to_openai st).playback_audio = st.playback_audio ∧
    (send_audio_chunk_to_openai st).conversation_active = st.conversation_active ∧
    (send_audio_chunk_to_openai st).ai_is_responding = st.ai_is_responding ∧
    (send_audio_chunk_to_openai st).audio_streaming_timer = st.audio_streaming_timer := by
  unfold send_audio_chunk_to_openai send_openai_message
  split
  · simp
  · cases st.websocket <;> simp

/-- C3: with an active conversation, interruptions disabled and recording
off, `response.done` on a non-empty PlaybackBuffer keeps recording off while
clearing `ai_is_responding`, `user_is_interrupting` and the remembered
assistant item id; a later streaming-timer tick at which the PlaybackBuffer
has drained empty turns recording back on. -/
theorem response_done_resume_policy (st : AppState)
    (hconv : st.conversation_active = true)
    (hrec : st.is_recording = false)
    (hbuf : st.playback_audio ≠ [])
    (htimer : st.audio_streaming_timer = true) :
    ((handleResponseDone false st).is_recording = false ∧
     (handleResponseDone false st).ai_is_responding = false ∧
     (handleResponseDone false st).user_is_interrupting = false ∧
     (handleResponseDone false st).current_assistant_item_id = none) ∧
    (handleTimerTick false
        { handleResponseDone false st with playback_audio := [] }).is_recording = true := by
  have hne : st.playback_audio.isEmpty = false := by
    cases hpa : st.playback_audio with
    | nil => exact absurd hpa hbuf
    | cons a t => rfl
  constructor
  · simp [handleResponseDone, hconv, hne, hrec]
  · have h1 : (handleResponseDone false st).conversation_active = true := by
      simp [handleResponseDone, hconv, hne]
    have h2 : (handleResponseDone false st).is_recording = false := by
      simp [handleResponseDone, hconv, hne, hrec]
    have h3 : (handleResponseDone false st).ai_is_responding = false := by
      simp [handleResponseDone, hconv, hne]
    have h4 : (handleResponseDone false st).audio_streaming_timer = true := by
      simp [handleResponseDone, hconv, hne, htimer]
    set st1 := handleResponseDone false st with hst1
    set st2 : AppState := { st1 with playback_audio := [] } with hst2
    have hp := send_chunk_preserves st2
    simp only [handleTimerTick]
    rw [show st2.audio_streaming_timer = true from h4]
    rw [show st2.conversation_active = true from h1]
    simp only [if_true]
    rw [show (send_audio_chunk_to_openai st2).playback_audio = ([] : List ℚ) from hp.2.1]
    simp only [List.isEmpty_nil, if_true, Bool.not_false]
    rw [hp.1, hp.2.2.1, hp.2.2.2.1]
    rw [show st2.is_recording = false from h2,
        show st2.conversation_active = true from h1,
        show st2.ai_is_responding = false from h3]
    simp

/-- A state mid-conversation: active, timer running, recording muted, one
pending playback sample. -/
def midTurnState : AppState :=
  { baseState with conversation_active := true
                   audio_streaming_timer := true
                   is_recording := false
                   playback_audio := [1] }

/-- C3 witness: the resume policy evaluated at `midTurnState`. -/
theorem response_done_resume_policy_witness :
    ((handleResponseDone false midTurnState).is_recording = false ∧
     (handleResponseDone false midTurnState).ai_is_responding = false ∧
     (handleResponseDone false midTurnState).user_is_interrupting = false ∧
     (handleResponseDone false midTurnState).current_assistant_item_id = none) ∧
    (handleTimerTick false
        { handleResponseDone false midTurnState with
            playback_audio := [] }).is_recording = true :=
  response_done_resume_policy midTurnState rfl rfl (by decide) rfl

/-- The playback frame loop either breaks out (returning cursor 0, a drain
count equal to the whole buffer length and `playing = false`), or it runs to
the end of the frame: the cursor moves forward without passing twice the
buffer length and the drain counter grows by exactly the number of times the
cursor crossed an even value. -/
theorem playLoop_cases (frames : Nat) : ∀ (len pos drain : Nat), pos ≤ 2 * len →
    playLoop frames len pos drain = (0, len, false) ∨
    ∃ pos1, pos ≤ pos1 ∧ pos1 ≤ 2 * len ∧
      playLoop frames len pos drain = (pos1, drain + (pos1 / 2 - pos / 2), true) := by
  induction frames with
  | zero =>
      intro len pos drain h
      right
      exact ⟨pos, le_refl _, h, by simp [playLoop]⟩
  | succ f ih =>
      intro len pos drain h
      simp only [playLoop]
      split
      · next hlt =>
          have h1 : pos + 1 ≤ 2 * len := by omega
          rcases ih len (pos + 1) (if (pos + 1) % 2 = 0 then drain + 1 else drain) h1 with
            hl | ⟨pos1, hp1, hp2, heq⟩
          · left
            exact hl
          · right
            refine ⟨pos1, by omega, hp2, ?_⟩
            rw [heq]
            have hdr : (if (pos + 1) % 2 = 0 then drain + 1 else drain)
                + (pos1 / 2 - (pos + 1) / 2) = drain + (pos1 / 2 - pos / 2) := by
              split <;> omega
            rw [hdr]
      · left
        rfl

/-- One playback-callback invocation preserves the playback-drain
invariant. -/
theorem onPlaybackFrame_inv (n : Nat) (st : AppState) (h : playbackInv st) :
    playbackInv (onPlaybackFrame n st) := by
  obtain ⟨h1, h2⟩ := h
  simp only [onPlaybackFrame]
  split
  · next hcond =>
      obtain ⟨hplay, hne, hlt⟩ := hcond
      have hlen : 0 < st.playback_audio.length := List.length_pos.mpr hne
      have hpos1 : st.playback_position ≤ 1 := by
        have := h2 0 hlen
        omega
      rcases playLoop_cases n st.playback_audio.length st.playback_position 0
          (by omega) with heq | ⟨p1, hle, hub, heq⟩
      · rw [heq]
        unfold playbackInv
        split
        · dsimp only
          refine ⟨?_, ?_⟩
          · rw [List.length_drop]
            omega
          · intro i hi
            rw [List.length_drop] at hi
            omega
        · next hguard =>
            exact absurd ⟨hlen, le_refl _⟩ hguard
      · rw [heq]
        unfold playbackInv
        dsimp only
        have hdle : 0 + (p1 / 2 - st.playback_position / 2) ≤ st.playback_audio.length := by
          omega
        split
        · next hguard =>
            dsimp only
            refine ⟨?_, ?_⟩
            · rw [List.length_drop]
              omega
            · intro i hi
              rw [List.length_drop] at hi
              omega
        · next hguard =>
            have hd0 : 0 + (p1 / 2 - st.playback_position / 2) = 0 := by
              by_contra hne0
              exact hguard ⟨by omega, hdle⟩
            dsimp only
            refine ⟨by omega, ?_⟩
            intro i hi
            omega
  · split
    · next hcond =>
        obtain ⟨hplay, hemp⟩ := hcond
        unfold playbackInv
        dsimp only
        refine ⟨by omega, ?_⟩
        intro i hi
        omega
    · exact ⟨h1, h2⟩

/-- C4: starting from cursor 0 and any buffer contents, after every
sequence of playback-callback invocations the invariant holds: the cursor
never exceeds twice the buffer length and no sample whose whole upsampled
range lies strictly below the cursor remains in the buffer. -/
theorem playback_drain_invariant (ticks : List Nat) (st : AppState)
    (h0 : st.playback_position = 0) :
    playbackInv (runPlaybackFrames ticks st) := by
  have hInv : playbackInv st := by
    constructor
    · omega
    · intro i hi
      omega
  clear h0
  induction ticks generalizing st with
  | nil => exact hInv
  | cons n rest ih => exact ih (onPlaybackFrame n st) (onPlaybackFrame_inv n st hInv)

/-- C4 witness: two frames of sizes 3 and 2 played against the one-sample
buffer of `playingState` (cursor 0). -/
theorem playback_drain_invariant_witness :
    playbackInv (runPlaybackFrames [3, 2] playingState) :=
  playback_drain_invariant [3, 2] playingState rfl
